import Mathlib

/-!
Verification of the kxmenu input-fan-in and menu state machine.

This file gives a shallow embedding, in Lean 4, of the input and menu
subsystems of the kxmenu repository (Go): the event codec, the hardware
key-event handler with press/release tracking, the keyboard fallback
decoder, the bounded event queue, the device-acceptance policy, and the
interactive/simple menu loops.  Machine integers are modelled as `Nat`
and `Int`; Go maps as functions with pointwise update; the buffered Go
channel as a list bounded by its capacity; fallible reads as lists of
remaining bytes (an empty list models a failed read).
-/

namespace Kxmenu

/-! ## Event codec (input package) -/

/-- `KeyCode` from the input package: a plain integer code
(`KeyUnknown = 0` up to `KeyQuit = 5`, digits encoded past `KeyQuit`). -/
abbrev KeyCode := Nat

def KeyUnknown : KeyCode := 0

def KeyUp : KeyCode := 1

def KeyDown : KeyCode := 2

def KeySelect : KeyCode := 3

def KeyEscape : KeyCode := 4

def KeyQuit : KeyCode := 5

/-- `EventType` from the input package (`KeyPress = 0`, `KeyRelease = 1`). -/
abbrev EventType := Nat

def KeyPress : EventType := 0

def KeyRelease : EventType := 1

/-- `KeyEvent` from the input package.  The Go field `Type` is spelled
`EType` here because `Type` is reserved in Lean. -/
structure KeyEvent where
  Code : KeyCode
  EType : EventType
  deriving DecidableEq, Repr, Inhabited

/-! Linux key codes for hardware buttons (input package constants). -/

def KEY_ESC : Nat := 1

def KEY_1 : Nat := 2

def KEY_9 : Nat := 10

def KEY_Q : Nat := 16

def KEY_ENTER : Nat := 28

def KEY_UP : Nat := 103

def KEY_DOWN : Nat := 108

def KEY_VOLUMEDOWN : Nat := 114

def KEY_VOLUMEUP : Nat := 115

def KEY_POWER : Nat := 116

/-- `translateKeyCode` (press/release-tracking variant of the input
package): maps a Linux key code to a semantic `KeyEvent`; unmatched codes
give `KeyUnknown`; the number keys `KEY_1 .. KEY_9` (codes 2..10) map to
`KeyQuit + n` for digit `n`. -/
def translateKeyCode (linuxCode : Nat) : KeyEvent :=
  { EType := KeyPress
    Code :=
      if linuxCode = KEY_VOLUMEUP ∨ linuxCode = KEY_UP then KeyUp
      else if linuxCode = KEY_VOLUMEDOWN ∨ linuxCode = KEY_DOWN then KeyDown
      else if linuxCode = KEY_POWER ∨ linuxCode = KEY_ENTER then KeySelect
      else if linuxCode = KEY_ESC then KeyEscape
      else if linuxCode = KEY_Q then KeyQuit
      else if KEY_1 ≤ linuxCode ∧ linuxCode ≤ KEY_9 then
        KeyQuit + (linuxCode - KEY_1 + 1)
      else KeyUnknown }

/-! ## Input aggregator queue

`NewInputManager` creates `eventChan: make(chan KeyEvent, 10)`.  The
buffered channel is modelled as a list (front = oldest) bounded by the
capacity; every producer pushes with `select { case ch <- e: default: }`,
i.e. the event is dropped when the buffer is full. -/

/-- Capacity of `eventChan` in `NewInputManager` (`make(chan KeyEvent, 10)`). -/
def eventChanCap : Nat := 10

/-- Non-blocking send on `eventChan`: append when the buffer has room,
drop the event otherwise. -/
def chanPush (q : List KeyEvent) (e : KeyEvent) : List KeyEvent :=
  if q.length < eventChanCap then q ++ [e] else q

/-- Push a whole list of events in order, each with the non-blocking policy. -/
def chanPushAll (q : List KeyEvent) (es : List KeyEvent) : List KeyEvent :=
  es.foldl chanPush q

/-! ## Hardware event handler (press/release-tracking variant) -/

/-- `handleKeyEvent` from the input package: state is the per-device
press map `keyStates` (Go map, absent keys read `false`) and the queue
contents of `eventChan`.  Value `1` records a press; value `0` clears the
flag and, only when the flag was set, translates the code and pushes the
event unless it translated to `KeyUnknown`; value `2` (auto-repeat) and
any other value do nothing. -/
def handleKeyEvent (keyStates : Nat → Bool) (q : List KeyEvent)
    (keyCode : Nat) (value : Int) : (Nat → Bool) × List KeyEvent :=
  if value = 1 then
    ((fun c => if c = keyCode then true else keyStates c), q)
  else if value = 0 then
    if keyStates keyCode then
      let ks2 : Nat → Bool := fun c => if c = keyCode then false else keyStates c
      let keyEvent := translateKeyCode keyCode
      if keyEvent.Code ≠ KeyUnknown then (ks2, chanPush q keyEvent)
      else (ks2, q)
    else (keyStates, q)
  else
    (keyStates, q)

/-! ## Keyboard fallback reader -/

/-- One iteration of the `listenKeyboard` decoding loop, on the list of
bytes still available on stdin (an empty list models a failed
`ReadByte`).  Returns the semantic code emitted by this iteration
(`none` when the byte is ignored or the first read fails) and the
remaining bytes.  Byte 27 consumes up to two follow-on bytes exactly as
the nested `ReadByte` calls do. -/
def listenKeyboardDecode : List Nat → Option KeyCode × List Nat
  | [] => (none, [])
  | char :: rest =>
    if char = 27 then
      match rest with
      | next :: rest2 =>
        if next = 91 then
          match rest2 with
          | arrow :: rest3 =>
            if arrow = 65 then (some KeyUp, rest3)
            else if arrow = 66 then (some KeyDown, rest3)
            else (some KeyEscape, rest3)
          | [] => (some KeyEscape, [])
        else (some KeyEscape, rest2)
      | [] => (some KeyEscape, [])
    else if char = 10 ∨ char = 13 then (some KeySelect, rest)
    else if char = 106 then (some KeyDown, rest)
    else if char = 107 then (some KeyUp, rest)
    else if char = 113 ∨ char = 81 then (some KeyQuit, rest)
    else if 49 ≤ char ∧ char ≤ 57 then (some (KeyQuit + (char - 48)), rest)
    else (none, rest)

/-- One iteration of `listenKeyboard` including the final non-blocking
push onto `eventChan` (events carry `Type: KeyPress`). -/
def listenKeyboardStep (q : List KeyEvent) (stdin : List Nat) :
    List KeyEvent × List Nat :=
  match listenKeyboardDecode stdin with
  | (some code, rest) => (chanPush q { Code := code, EType := KeyPress }, rest)
  | (none, rest) => (q, rest)

/-! ## Device prober (name-pattern variant) -/

/-- `pre` is a leading segment of `s` (character-by-character equality). -/
def strLeads : List Char → List Char → Bool
  | _, [] => true
  | [], _ :: _ => false
  | c :: cs, p :: ps => c = p && strLeads cs ps

/-- `strings.Contains`: `pat` occurs contiguously inside `s`. -/
def strHasSub (s pat : List Char) : Bool :=
  match s with
  | [] => strLeads [] pat
  | _ :: rest => strLeads s pat || strHasSub rest pat

/-- `strings.ToLower` restricted to ASCII, which covers every pattern on
the allow-list and every device name compared against it. -/
def asciiLower (c : Char) : Char :=
  if 'A' ≤ c ∧ c ≤ 'Z' then Char.ofNat (c.toNat + 32) else c

/-- The allow-list of name substrings in `hasRelevantKeys`. -/
def relevantPatterns : List String :=
  ["gpio-keys", "power", "volume", "button", "pmic", "keyboard"]

/-- `hasRelevantKeys(file, name)` from the name-pattern variant of the
input package.  The Go function receives the open device file but never
touches it; `capQueryResult` models whatever a capability-bitmask query
on that handle would have said (`none` = failed/absent) and is likewise
unused: acceptance is decided purely by lower-casing the name and
checking it against the substring allow-list. -/
def hasRelevantKeys (capQueryResult : Option Bool) (name : String) : Bool :=
  let lname := name.data.map asciiLower
  relevantPatterns.any (fun pattern => strHasSub lname pattern.data)

/-- Per-device outcome inside `DiscoverDevices` after the name query
succeeded. -/
inductive DeviceOutcome where
  | accepted : DeviceOutcome
  | closedRejected : DeviceOutcome
  deriving DecidableEq, Repr

/-- The accept-or-close decision of `DiscoverDevices` (name-pattern
variant) for one openable, name-readable device: keep the device when
`hasRelevantKeys` holds, otherwise `file.Close()`. -/
def discoverDeviceOutcome (capQueryResult : Option Bool) (name : String) :
    DeviceOutcome :=
  if hasRelevantKeys capQueryResult name then DeviceOutcome.accepted
  else DeviceOutcome.closedRejected

/-! ## Menu data model (menu and entry packages) -/

/-- `BootEntry` from the entry package. -/
structure BootEntry where
  Title : String
  Version : String
  Linux : String
  Initrd : String
  Devicetree : String
  Options : String
  FilePath : String
  deriving DecidableEq, Repr, Inhabited

/-- `MenuItem` from the menu package. -/
structure MenuItem where
  Entry : BootEntry
  DisplayName : String
  Description : String
  deriving DecidableEq, Repr, Inhabited

/-- `BootMenu` from the menu package, restricted to the fields the menu
loop reads (`Terminal` only drives rendering and `InputManager` is the
event source, modelled separately).  `SelectedIndex` and `Timeout` are Go
`int`s, modelled as `Int`. -/
structure BootMenu where
  Items : List MenuItem
  SelectedIndex : Int
  Title : String
  Timeout : Int
  deriving DecidableEq, Repr

/-- `m.Items[idx].Entry`: list indexing with the Go `int` index. -/
def menuItemEntry (m : BootMenu) (idx : Int) : BootEntry :=
  (m.Items.getD idx.toNat default).Entry

/-! ## Interactive menu loop -/

/-- One wake-up of the `showInteractiveMenu` select: either the timeout
channel fired, or a byte arrived on `inputCh`; for byte 27 the loop then
reads two more bytes directly from stdin into a zeroed buffer, modelled
by `stdinBuf` (missing bytes read as 0, as a short `Read` leaves the
buffer zeroed). -/
inductive MenuEvent where
  | timeoutFired : MenuEvent
  | key : Nat → List Nat → MenuEvent
  deriving DecidableEq, Repr

/-- Result of `showInteractiveMenu` / `showSimpleMenu`:
`(*entry.BootEntry, error)` with exactly one side set. -/
inductive MenuResult where
  | ok : BootEntry → MenuResult
  | err : String → MenuResult
  deriving DecidableEq, Repr

/-- Outcome of one iteration of the interactive loop: continue with an
updated menu state, or return. -/
inductive MenuStep where
  | cont : BootMenu → MenuStep
  | ret : MenuResult → MenuStep
  deriving DecidableEq, Repr

/-- One iteration of the `showInteractiveMenu` main loop (after
`drawMenu`), transcribed case by case from the Go `select`/`switch`. -/
def menuStep (m : BootMenu) : MenuEvent → MenuStep
  | MenuEvent.timeoutFired => MenuStep.ret (MenuResult.ok (menuItemEntry m m.SelectedIndex))
  | MenuEvent.key key stdinBuf =>
    if key = 10 ∨ key = 13 then
      MenuStep.ret (MenuResult.ok (menuItemEntry m m.SelectedIndex))
    else if key = 27 then
      let b0 := stdinBuf.getD 0 0
      let b1 := stdinBuf.getD 1 0
      if b0 = 91 then
        if b1 = 65 then
          MenuStep.cont { m with SelectedIndex :=
            if m.SelectedIndex > 0 then m.SelectedIndex - 1 else m.SelectedIndex }
        else if b1 = 66 then
          MenuStep.cont { m with SelectedIndex :=
            if m.SelectedIndex < (m.Items.length : Int) - 1 then m.SelectedIndex + 1
            else m.SelectedIndex }
        else MenuStep.cont m
      else MenuStep.cont m
    else if key = 113 ∨ key = 81 then
      MenuStep.ret (MenuResult.err "menu cancelled by user")
    else if key = 106 then
      MenuStep.cont { m with SelectedIndex :=
        if m.SelectedIndex < (m.Items.length : Int) - 1 then m.SelectedIndex + 1
        else m.SelectedIndex }
    else if key = 107 then
      MenuStep.cont { m with SelectedIndex :=
        if m.SelectedIndex > 0 then m.SelectedIndex - 1 else m.SelectedIndex }
    else if 49 ≤ key ∧ key ≤ 57 then
      let index : Int := (key : Int) - 49
      if index < (m.Items.length : Int) then
        MenuStep.ret (MenuResult.ok (menuItemEntry m index))
      else MenuStep.cont m
    else MenuStep.cont m

/-- The byte the hardware-input adapter goroutine of
`showInteractiveMenu` writes into `inputCh` for a semantic event pulled
from the `InputManager` (`KeyUp → 'k'`, `KeyDown → 'j'`,
`KeySelect → 13`, `KeyQuit`/`KeyEscape → 'q'`, anything else dropped). -/
def hardwareEventByte (e : KeyEvent) : Option Nat :=
  if e.Code = KeyUp then some 107
  else if e.Code = KeyDown then some 106
  else if e.Code = KeySelect then some 13
  else if e.Code = KeyQuit ∨ e.Code = KeyEscape then some 113
  else none

/-- Whether `showInteractiveMenu` arms the timeout goroutine: the timer
is started only under `if m.Timeout > 0`. -/
def timeoutArmed (m : BootMenu) : Bool := decide (m.Timeout > 0)

/-! ## Navigation sequences (for the clamping invariant) -/

/-- An Up or Down input to the interactive loop; the flag says whether it
arrives as a terminal arrow escape sequence (`ESC [ A` / `ESC [ B`) or as
the single byte `'k'` / `'j'` (vi binding, also what the hardware adapter
emits). -/
inductive NavEvent where
  | up : Bool → NavEvent
  | down : Bool → NavEvent
  deriving DecidableEq, Repr

/-- The loop event carrying a navigation input. -/
def navMenuEvent : NavEvent → MenuEvent
  | NavEvent.up true => MenuEvent.key 27 [91, 65]
  | NavEvent.up false => MenuEvent.key 107 []
  | NavEvent.down true => MenuEvent.key 27 [91, 66]
  | NavEvent.down false => MenuEvent.key 106 []

/-- Apply one navigation input to the menu state (navigation inputs
always continue the loop; the `ret` branch is dead). -/
def navApply (m : BootMenu) (e : NavEvent) : BootMenu :=
  match menuStep m (navMenuEvent e) with
  | MenuStep.cont m2 => m2
  | MenuStep.ret _ => m

/-- Run a whole sequence of navigation inputs. -/
def navRun (m : BootMenu) (events : List NavEvent) : BootMenu :=
  events.foldl navApply m

/-! ## Non-TTY fallback path -/

/-- Which path `Show` takes. -/
inductive ShowPath where
  | simple : ShowPath
  | interactive : ShowPath
  deriving DecidableEq, Repr

/-- The dispatch at the top of `Show`: the simple synchronous menu is
used when stdout is not a TTY or when `setupTerminal` fails. -/
def showPath (isTTY : Bool) (setupOk : Bool) : ShowPath :=
  if !isTTY then ShowPath.simple
  else if !setupOk then ShowPath.simple
  else ShowPath.interactive

/-- Digit run of `strconv.Atoi`: all remaining characters must be
decimal digits, at least implicitly one consumed by the caller. -/
def atoiDigits : List Char → Nat → Option Nat
  | [], acc => some acc
  | c :: rest, acc =>
    if c.isDigit then atoiDigits rest (acc * 10 + (c.toNat - 48)) else none

/-- `strconv.Atoi` on the token `showSimpleMenu` reads: optional sign
followed by at least one decimal digit, anything else an error
(int-range overflow is not modelled; menu selections are tiny). -/
def goAtoi (s : String) : Option Int :=
  match s.data with
  | [] => none
  | c :: rest =>
    if c = '-' then
      if rest = [] then none
      else (atoiDigits rest 0).map (fun n => -(n : Int))
    else if c = '+' then
      if rest = [] then none
      else (atoiDigits rest 0).map (fun n => (n : Int))
    else (atoiDigits (c :: rest) 0).map (fun n => (n : Int))

/-- `showSimpleMenu`, as a function of the whitespace-delimited token
`fmt.Scanln` read from stdin (empty string when the line was blank):
blank input defaults to the first item; otherwise the token must parse
to an integer in `[1, len(Items)]`, selecting item `selection - 1`. -/
def showSimpleMenu (items : List MenuItem) (input : String) : MenuResult :=
  if input = "" then MenuResult.ok ((items.getD 0 default).Entry)
  else
    match goAtoi input with
    | none => MenuResult.err ("invalid selection: " ++ input)
    | some selection =>
      if selection < 1 ∨ selection > (items.length : Int) then
        MenuResult.err ("invalid selection: " ++ input)
      else MenuResult.ok ((items.getD (selection - 1).toNat default).Entry)

/-- The semantic codes the menu consumer understands: the five named
actions plus the digit band `KeyQuit + 1 .. KeyQuit + 9`. -/
def semanticCode (c : KeyCode) : Bool :=
  decide (c = KeyUp ∨ c = KeyDown ∨ c = KeySelect ∨ c = KeyEscape ∨ c = KeyQuit ∨
    (KeyQuit + 1 ≤ c ∧ c ≤ KeyQuit + 9))

/-! ## Sample data for concrete evaluations -/

def sampleEntry (t : String) : BootEntry :=
  { Title := t, Version := "", Linux := "", Initrd := "", Devicetree := "",
    Options := "", FilePath := "" }

def sampleItem (t : String) : MenuItem :=
  { Entry := sampleEntry t, DisplayName := t, Description := "" }

/-- A five-item menu with the selection on the third item. -/
def sampleMenu5 : BootMenu :=
  { Items := [sampleItem "alpha", sampleItem "beta", sampleItem "gamma",
              sampleItem "delta", sampleItem "epsilon"],
    SelectedIndex := 2, Title := "kxboot", Timeout := 5 }

def sampleMenuTop : BootMenu := { sampleMenu5 with SelectedIndex := 0 }

def sampleMenuLast : BootMenu := { sampleMenu5 with SelectedIndex := 4 }

/-- A press map recording that only `KEY_VOLUMEUP` is down. -/
def pressedMap : Nat → Bool := fun c => decide (c = KEY_VOLUMEUP)

def burst (n : Nat) : List KeyEvent :=
  List.replicate n { Code := KeyUp, EType := KeyPress }

/-! ## Helper lemmas -/

/-- Navigation inputs only move the selection index, by the clamped
increment/decrement of the interactive loop. -/
theorem navApply_eq (m : BootMenu) : ∀ e : NavEvent,
    navApply m e = { m with SelectedIndex :=
      match e with
      | NavEvent.up _ =>
        if m.SelectedIndex > 0 then m.SelectedIndex - 1 else m.SelectedIndex
      | NavEvent.down _ =>
        if m.SelectedIndex < (m.Items.length : Int) - 1 then m.SelectedIndex + 1
        else m.SelectedIndex } := by
  rintro (b | b) <;> cases b <;> simp [navApply, navMenuEvent, menuStep]

theorem navApply_Items (m : BootMenu) (e : NavEvent) :
    (navApply m e).Items = m.Items := by
  rw [navApply_eq]

theorem navApply_bounds (m : BootMenu) (e : NavEvent)
    (h0 : 0 ≤ m.SelectedIndex) (h1 : m.SelectedIndex < (m.Items.length : Int)) :
    0 ≤ (navApply m e).SelectedIndex ∧
      (navApply m e).SelectedIndex < (m.Items.length : Int) := by
  rw [navApply_eq]
  rcases e with b | b <;> dsimp only <;> split_ifs <;> constructor <;> omega

theorem navRun_bounds (events : List NavEvent) : ∀ m : BootMenu,
    0 ≤ m.SelectedIndex → m.SelectedIndex < (m.Items.length : Int) →
    (navRun m events).Items = m.Items ∧ 0 ≤ (navRun m events).SelectedIndex ∧
      (navRun m events).SelectedIndex < (m.Items.length : Int) := by
  induction events with
  | nil => intro m h0 h1; exact ⟨rfl, h0, h1⟩
  | cons e es ih =>
    intro m h0 h1
    have hb := navApply_bounds m e h0 h1
    have hit := navApply_Items m e
    have hrec := ih (navApply m e) hb.1 (by rw [hit]; exact hb.2)
    rw [hit] at hrec
    exact ⟨hrec.1, hrec.2.1, hrec.2.2⟩

/-- C1: for every menu with a non-empty item list and every sequence of
Up and Down events processed by the interactive menu loop (arriving as
vi/hardware bytes or as arrow escape sequences), the selection index
stays within `[0, len(items) - 1]`; an Up event at index 0 and a Down
event at index `len(items) - 1` leave the state unchanged (clamping,
never wraparound). -/
theorem c1_up_down_clamped (m : BootMenu) (events : List NavEvent)
    (hne : m.Items ≠ []) (h0 : 0 ≤ m.SelectedIndex)
    (h1 : m.SelectedIndex < (m.Items.length : Int)) :
    (0 ≤ (navRun m events).SelectedIndex ∧
      (navRun m events).SelectedIndex < (m.Items.length : Int)) ∧
    (m.SelectedIndex = 0 → ∀ viaArrow, navApply m (NavEvent.up viaArrow) = m) ∧
    (m.SelectedIndex = (m.Items.length : Int) - 1 →
      ∀ viaArrow, navApply m (NavEvent.down viaArrow) = m) := by
  refine ⟨⟨(navRun_bounds events m h0 h1).2.1, (navRun_bounds events m h0 h1).2.2⟩,
    ?_, ?_⟩
  · intro hz viaArrow
    rw [navApply_eq]
    have : ¬(m.SelectedIndex > 0) := by omega
    simp [this]
  · intro hl viaArrow
    rw [navApply_eq]
    have : ¬(m.SelectedIndex < (m.Items.length : Int) - 1) := by omega
    simp [this]

/-- Witness for C1 at a concrete five-item menu. -/
theorem c1_up_down_clamped_w :
    (0 ≤ (navRun sampleMenu5 [NavEvent.up false, NavEvent.up true, NavEvent.down false,
        NavEvent.down true, NavEvent.down false]).SelectedIndex ∧
      (navRun sampleMenu5 [NavEvent.up false, NavEvent.up true, NavEvent.down false,
        NavEvent.down true, NavEvent.down false]).SelectedIndex <
        (sampleMenu5.Items.length : Int)) ∧
    navApply sampleMenuTop (NavEvent.up true) = sampleMenuTop ∧
    navApply sampleMenuLast (NavEvent.down false) = sampleMenuLast :=
  ⟨(c1_up_down_clamped sampleMenu5 _ (by decide) (by decide) (by decide)).1,
   (c1_up_down_clamped sampleMenuTop [] (by decide) (by decide) (by decide)).2.1
     (by decide) true,
   (c1_up_down_clamped sampleMenuLast [] (by decide) (by decide) (by decide)).2.2
     (by decide) false⟩

/-- C2: on the hardware press/release-tracking path, a key-type record
produces at most one semantic event, and only on a value-0 release whose
key code has its press flag set (the flag only ever set by a value-1
press); a bare release for a code never pressed changes nothing, and a
value-2 auto-repeat record changes neither the queue nor the press map,
regardless of prior state. -/
theorem c2_press_release_gating :
    (∀ ks (q : List KeyEvent) code v,
      (handleKeyEvent ks q code v).2.length ≤ q.length + 1) ∧
    (∀ ks (q : List KeyEvent) code v,
      (handleKeyEvent ks q code v).2 ≠ q → v = 0 ∧ ks code = true) ∧
    (∀ ks (q : List KeyEvent) code,
      ks code = false → handleKeyEvent ks q code 0 = (ks, q)) ∧
    (∀ ks (q : List KeyEvent) code, handleKeyEvent ks q code 2 = (ks, q)) := by
  refine ⟨?_, ?_, ?_, ?_⟩
  · intro ks q code v
    simp only [handleKeyEvent, chanPush]
    split_ifs <;> simp
  · intro ks q code v hne
    simp only [handleKeyEvent] at hne
    split_ifs at hne with hv1 hv0 hks hcode
    · exact absurd rfl hne
    · exact ⟨hv0, hks⟩
    · exact ⟨hv0, hks⟩
    · exact absurd rfl hne
    · exact absurd rfl hne
  · intro ks q code h
    simp [handleKeyEvent, h]
  · intro ks q code
    simp [handleKeyEvent]

/-- Witness for C2: releasing volume-up after a recorded press changes
the queue (forcing value 0 and a set flag); a bare release and an
auto-repeat record are no-ops. -/
theorem c2_press_release_gating_w :
    ((0 : Int) = 0 ∧ pressedMap KEY_VOLUMEUP = true) ∧
    handleKeyEvent (fun _ => false) [] KEY_VOLUMEUP 0 = ((fun _ => false), []) ∧
    handleKeyEvent pressedMap [] KEY_VOLUMEUP 2 = (pressedMap, []) :=
  ⟨c2_press_release_gating.2.1 pressedMap [] KEY_VOLUMEUP 0 (by decide),
   c2_press_release_gating.2.2.1 (fun _ => false) [] KEY_VOLUMEUP rfl,
   c2_press_release_gating.2.2.2 pressedMap [] KEY_VOLUMEUP⟩

/-- C3: a digit key `n` (byte `'0' + n`, `1 ≤ n ≤ 9`) with
`n ≤ len(items)` makes the interactive loop return item `n - 1`
immediately, with no confirmation step; with `n > len(items)` the digit
is ignored and the loop continues unchanged. -/
theorem c3_digit_select (m : BootMenu) (stdinBuf : List Nat) (n : Nat)
    (hn1 : 1 ≤ n) (hn9 : n ≤ 9) :
    (n ≤ m.Items.length →
      menuStep m (MenuEvent.key (48 + n) stdinBuf) =
        MenuStep.ret (MenuResult.ok ((m.Items.getD (n - 1) default).Entry))) ∧
    (m.Items.length < n →
      menuStep m (MenuEvent.key (48 + n) stdinBuf) = MenuStep.cont m) := by
  have e1 : ¬(48 + n = 10 ∨ 48 + n = 13) := by omega
  have e2 : ¬(48 + n = 27) := by omega
  have e3 : ¬(48 + n = 113 ∨ 48 + n = 81) := by omega
  have e4 : ¬(48 + n = 106) := by omega
  have e5 : ¬(48 + n = 107) := by omega
  have e6 : 49 ≤ 48 + n ∧ 48 + n ≤ 57 := by omega
  constructor
  · intro hle
    have hidx : ((48 + n : Nat) : Int) - 49 < (m.Items.length : Int) := by
      push_cast; omega
    simp only [menuStep, if_neg e1, if_neg e2, if_neg e3, if_neg e4, if_neg e5,
      if_pos e6, if_pos hidx]
    have ht : (((48 + n : Nat) : Int) - 49).toNat = n - 1 := by omega
    simp only [menuItemEntry, ht]
  · intro hgt
    have hidx : ¬(((48 + n : Nat) : Int) - 49 < (m.Items.length : Int)) := by
      push_cast; omega
    simp only [menuStep, if_neg e1, if_neg e2, if_neg e3, if_neg e4, if_neg e5,
      if_pos e6, if_neg hidx]

/-- Witness for C3: on the five-item sample menu, digit 3 returns the
third item at once and digit 7 is a no-op. -/
theorem c3_digit_select_w :
    menuStep sampleMenu5 (MenuEvent.key 51 []) =
      MenuStep.ret (MenuResult.ok ((sampleMenu5.Items.getD 2 default).Entry)) ∧
    menuStep sampleMenu5 (MenuEvent.key 55 []) = MenuStep.cont sampleMenu5 :=
  ⟨(c3_digit_select sampleMenu5 [] 3 (by decide) (by decide)).1 (by decide),
   (c3_digit_select sampleMenu5 [] 7 (by decide) (by decide)).2 (by decide)⟩

/-- C4: when the timeout fires, the interactive loop returns the entry
at the current selection index — the very same step result as receiving
a Select (Enter) event at that moment — and the timeout goroutine is
armed exactly when the configured timeout is positive. -/
theorem c4_timeout_selects_current (m : BootMenu) :
    menuStep m MenuEvent.timeoutFired =
      MenuStep.ret (MenuResult.ok (menuItemEntry m m.SelectedIndex)) ∧
    menuStep m MenuEvent.timeoutFired = menuStep m (MenuEvent.key 13 []) ∧
    (timeoutArmed m = true ↔ m.Timeout > 0) := by
  refine ⟨rfl, ?_, by simp [timeoutArmed]⟩
  simp [menuStep]

/-- C5: a menu-level Quit or Escape semantic event is fed to the loop as
the byte `'q'` by the hardware-input adapter, and that byte makes the
loop return the cancellation error and no entry. -/
theorem c5_quit_escape_cancels (m : BootMenu) (e : KeyEvent) (stdinBuf : List Nat)
    (h : e.Code = KeyQuit ∨ e.Code = KeyEscape) :
    hardwareEventByte e = some 113 ∧
    menuStep m (MenuEvent.key 113 stdinBuf) =
      MenuStep.ret (MenuResult.err "menu cancelled by user") := by
  constructor
  · rcases h with h | h <;>
      simp [hardwareEventByte, h, KeyUp, KeyDown, KeySelect, KeyEscape, KeyQuit]
  · simp [menuStep]

/-- Witness for C5 with a hardware Quit event on the sample menu. -/
theorem c5_quit_escape_cancels_w :
    hardwareEventByte { Code := KeyQuit, EType := KeyPress } = some 113 ∧
    menuStep sampleMenu5 (MenuEvent.key 113 []) =
      MenuStep.ret (MenuResult.err "menu cancelled by user") :=
  c5_quit_escape_cancels sampleMenu5 { Code := KeyQuit, EType := KeyPress } []
    (Or.inl rfl)

/-- C6: the keyboard fallback reader decodes `[27, '[', 'A']` as Up and
`[27, '[', 'B']` as Down; `27, '['` followed by any other third byte, or
by a failed third read, gives Escape; and a lone 27 followed by a
non-`'['` byte or by a failed read gives Escape. -/
theorem c6_escape_decoding :
    listenKeyboardDecode [27, 91, 65] = (some KeyUp, []) ∧
    listenKeyboardDecode [27, 91, 66] = (some KeyDown, []) ∧
    (∀ arrow rest, arrow ≠ 65 → arrow ≠ 66 →
      listenKeyboardDecode (27 :: 91 :: arrow :: rest) = (some KeyEscape, rest)) ∧
    listenKeyboardDecode [27, 91] = (some KeyEscape, []) ∧
    (∀ next rest, next ≠ 91 →
      listenKeyboardDecode (27 :: next :: rest) = (some KeyEscape, rest)) ∧
    listenKeyboardDecode [27] = (some KeyEscape, []) := by
  refine ⟨by decide, by decide, ?_, by decide, ?_, by decide⟩
  · intro arrow rest hA hB
    simp [listenKeyboardDecode, hA, hB]
  · intro next rest hbr
    simp [listenKeyboardDecode, hbr]

/-- Witness for C6 on the concrete unrecognized bytes `'Z'` (90) after
the bracket and `'x'` (120) after a lone escape. -/
theorem c6_escape_decoding_w :
    listenKeyboardDecode [27, 91, 90] = (some KeyEscape, []) ∧
    listenKeyboardDecode [27, 120, 7] = (some KeyEscape, [7]) :=
  ⟨c6_escape_decoding.2.2.1 90 [] (by decide) (by decide),
   c6_escape_decoding.2.2.2.2.1 120 [7] (by decide)⟩

/-- The length of the queue after a burst of non-blocking pushes is the
old length plus the pushed count, capped at the capacity. -/
theorem chanPushAll_length (es : List KeyEvent) : ∀ q : List KeyEvent,
    q.length ≤ eventChanCap →
    (chanPushAll q es).length = min eventChanCap (q.length + es.length) := by
  induction es with
  | nil =>
    intro q h
    simp only [chanPushAll, List.foldl_nil, List.length_nil, Nat.add_zero]
    omega
  | cons e es ih =>
    intro q h
    rw [show chanPushAll q (e :: es) = chanPushAll (chanPush q e) es from rfl]
    by_cases hlt : q.length < eventChanCap
    · have hp : chanPush q e = q ++ [e] := by simp [chanPush, hlt]
      rw [ih (chanPush q e) (by rw [hp]; simp; omega), hp]
      simp
      omega
    · have hp : chanPush q e = q := by simp [chanPush, hlt]
      rw [ih (chanPush q e) (by rw [hp]; exact h), hp]
      simp
      omega

/-- C7: the aggregator queue has capacity 10, a push onto a full queue
drops the event and leaves the queue unchanged (never blocking the
producer), and pushing `capacity + k` events while no consumer runs
retains exactly `capacity` events. -/
theorem c7_queue_capacity_drop :
    eventChanCap = 10 ∧
    (∀ (q : List KeyEvent) e, eventChanCap ≤ q.length → chanPush q e = q) ∧
    (∀ k (es : List KeyEvent), es.length = eventChanCap + k →
      (chanPushAll [] es).length = eventChanCap) := by
  refine ⟨rfl, ?_, ?_⟩
  · intro q e h
    simp [chanPush]
    omega
  · intro k es h
    rw [chanPushAll_length es [] (by simp)]
    simp [h]

/-- Witness for C7: a push onto a 10-element queue is dropped, and 13
pushes onto the empty queue retain exactly 10 events. -/
theorem c7_queue_capacity_drop_w :
    chanPush (burst 10) { Code := KeyDown, EType := KeyPress } = burst 10 ∧
    (chanPushAll [] (burst 13)).length = eventChanCap :=
  ⟨c7_queue_capacity_drop.2.1 (burst 10) { Code := KeyDown, EType := KeyPress }
     (by decide),
   c7_queue_capacity_drop.2.2 3 (burst 13) (by decide)⟩

/-- C8: when stdout is not a TTY or terminal setup fails, `Show` takes
the synchronous numbered-prompt path; there, input "3" on a five-item
menu returns the entry at index 2, blank input returns the entry at
index 0, and non-numeric or out-of-range input returns an error and no
entry. -/
theorem c8_simple_fallback (items : List MenuItem) (s : String)
    (h5 : items.length = 5) :
    (∀ tty ok, tty = false ∨ ok = false → showPath tty ok = ShowPath.simple) ∧
    showSimpleMenu items "3" = MenuResult.ok ((items.getD 2 default).Entry) ∧
    showSimpleMenu items "" = MenuResult.ok ((items.getD 0 default).Entry) ∧
    (s ≠ "" → goAtoi s = none →
      showSimpleMenu items s = MenuResult.err ("invalid selection: " ++ s)) ∧
    (∀ sel : Int, goAtoi s = some sel → sel < 1 ∨ 5 < sel →
      showSimpleMenu items s = MenuResult.err ("invalid selection: " ++ s)) := by
  refine ⟨?_, ?_, ?_, ?_, ?_⟩
  · rintro tty ok (rfl | rfl) <;> simp [showPath]
  · have h3 : goAtoi "3" = some 3 := by decide
    have hi : ¬((3 : Int) < 1 ∨ (3 : Int) > (items.length : Int)) := by
      rw [h5]; decide
    rw [showSimpleMenu, if_neg (by decide : ¬("3" : String) = ""), h3]
    dsimp only
    rw [if_neg hi]
    rfl
  · simp [showSimpleMenu]
  · intro hne hnone
    rw [showSimpleMenu, if_neg hne, hnone]
  · intro sel hsel hrange
    have hi : sel < 1 ∨ sel > (items.length : Int) := by
      rw [h5]; exact_mod_cast hrange
    have hne : s ≠ "" := by
      intro h
      rw [h] at hsel
      rw [show goAtoi "" = none by decide] at hsel
      exact Option.noConfusion hsel
    rw [showSimpleMenu, if_neg hne, hsel]
    dsimp only
    rw [if_pos hi]

/-- Witness for C8 on a concrete five-item menu: the non-TTY dispatch,
selection "3", blank input, the non-numeric token "abc" and the
out-of-range token "7". -/
theorem c8_simple_fallback_w :
    showPath false true = ShowPath.simple ∧
    showSimpleMenu sampleMenu5.Items "3" =
      MenuResult.ok ((sampleMenu5.Items.getD 2 default).Entry) ∧
    showSimpleMenu sampleMenu5.Items "" =
      MenuResult.ok ((sampleMenu5.Items.getD 0 default).Entry) ∧
    showSimpleMenu sampleMenu5.Items "abc" =
      MenuResult.err ("invalid selection: " ++ "abc") ∧
    showSimpleMenu sampleMenu5.Items "7" =
      MenuResult.err ("invalid selection: " ++ "7") :=
  ⟨(c8_simple_fallback sampleMenu5.Items "" (by decide)).1 false true (Or.inl rfl),
   (c8_simple_fallback sampleMenu5.Items "" (by decide)).2.1,
   (c8_simple_fallback sampleMenu5.Items "" (by decide)).2.2.1,
   (c8_simple_fallback sampleMenu5.Items "abc" (by decide)).2.2.2.1 (by decide)
     (by decide),
   (c8_simple_fallback sampleMenu5.Items "7" (by decide)).2.2.2.2 7 (by decide)
     (by decide)⟩

/-- C9: the name-pattern device-acceptance policy decides purely on the
decoded name — any capability-query outcome (absent, failed, or any
answer) leaves the decision unchanged — accepting exactly the names
whose lower-casing contains one of the six allow-listed substrings; a
device named "gpio-keys" is accepted with no or a failed capability
query, and a device matching no pattern is rejected and closed. -/
theorem c9_name_pattern_policy :
    (∀ cap1 cap2 name, hasRelevantKeys cap1 name = hasRelevantKeys cap2 name) ∧
    (∀ cap name, hasRelevantKeys cap name = true ↔
      ∃ p ∈ relevantPatterns, strHasSub (name.data.map asciiLower) p.data = true) ∧
    hasRelevantKeys none "gpio-keys" = true ∧
    hasRelevantKeys (some false) "gpio-keys" = true ∧
    (∀ cap name, hasRelevantKeys cap name = false →
      discoverDeviceOutcome cap name = DeviceOutcome.closedRejected) := by
  refine ⟨fun _ _ _ => rfl, ?_, by decide, by decide, ?_⟩
  · intro cap name
    simp [hasRelevantKeys, List.any_eq_true]
  · intro cap name h
    simp [discoverDeviceOutcome, h]

/-- Witness for C9: a device named "mouse0" matches no pattern and is
closed. -/
theorem c9_name_pattern_policy_w :
    discoverDeviceOutcome (some true) "mouse0" = DeviceOutcome.closedRejected :=
  c9_name_pattern_policy.2.2.2.2 (some true) "mouse0" (by decide)

/-- A translated hardware code that is not `KeyUnknown` is one of the
recognized semantic codes. -/
theorem translateKeyCode_semantic (lc : Nat)
    (h : (translateKeyCode lc).Code ≠ KeyUnknown) :
    semanticCode (translateKeyCode lc).Code = true := by
  unfold translateKeyCode KEY_VOLUMEUP KEY_UP KEY_VOLUMEDOWN KEY_DOWN KEY_POWER
    KEY_ENTER KEY_ESC KEY_Q KEY_1 KEY_9 at h ⊢
  dsimp only at h ⊢
  split_ifs at h ⊢ with h1 h2 h3 h4 h5 h6
  · simp [semanticCode, KeyUp]
  · simp [semanticCode, KeyDown]
  · simp [semanticCode, KeySelect]
  · simp [semanticCode, KeyEscape]
  · simp [semanticCode, KeyQuit]
  · simp only [semanticCode, KeyUp, KeyDown, KeySelect, KeyEscape, KeyQuit,
      decide_eq_true_eq]
    exact Or.inr (Or.inr (Or.inr (Or.inr (Or.inr
      ⟨Nat.add_le_add_left (by omega) 5, Nat.add_le_add_left (by omega) 5⟩))))
  · exact absurd rfl h

/-- Membership after a non-blocking push. -/
theorem chanPush_mem (q : List KeyEvent) (x e : KeyEvent)
    (h : e ∈ chanPush q x) : e ∈ q ∨ e = x := by
  unfold chanPush at h
  split_ifs at h
  · simpa using h
  · exact Or.inl h

/-- Every code the keyboard fallback decoder emits is a recognized
semantic code. -/
theorem listenKeyboardDecode_semantic : ∀ stdin code rest,
    listenKeyboardDecode stdin = (some code, rest) →
    semanticCode code = true := by
  intro stdin code rest h
  rcases stdin with _ | ⟨char, _ | ⟨next, _ | ⟨arrow, tl3⟩⟩⟩ <;>
    simp only [listenKeyboardDecode] at h
  case nil => simp at h
  all_goals
    split_ifs at h <;>
      first
        | (obtain ⟨rfl, -⟩ := h
           first
             | decide
             | (simp only [semanticCode, KeyUp, KeyDown, KeySelect, KeyEscape,
                  KeyQuit, decide_eq_true_eq]
                exact Or.inr (Or.inr (Or.inr (Or.inr (Or.inr
                  ⟨Nat.add_le_add_left (by omega) 5,
                   Nat.add_le_add_left (by omega) 5⟩))))))
        | simp at h

/-- C10: no `KeyUnknown` event is ever placed into the aggregator
queue.  `KeyUnknown` is not a recognized semantic code; one hardware
key record preserves the invariant that every queued event carries a
recognized code (the handler drops a `KeyUnknown` translation before
pushing); the keyboard decoder only ever emits recognized codes; and one
keyboard iteration preserves the same queue invariant. -/
theorem c10_no_unknown_enqueued :
    semanticCode KeyUnknown = false ∧
    (∀ ks (q : List KeyEvent) code v,
      (∀ e ∈ q, semanticCode e.Code = true) →
      ∀ e ∈ (handleKeyEvent ks q code v).2, semanticCode e.Code = true) ∧
    (∀ stdin code rest, listenKeyboardDecode stdin = (some code, rest) →
      semanticCode code = true) ∧
    (∀ (q : List KeyEvent) stdin, (∀ e ∈ q, semanticCode e.Code = true) →
      ∀ e ∈ (listenKeyboardStep q stdin).1, semanticCode e.Code = true) := by
  refine ⟨by decide, ?_, listenKeyboardDecode_semantic, ?_⟩
  · intro ks q code v hq e he
    simp only [handleKeyEvent] at he
    split_ifs at he with hv1 hv0 hks hcode
    · exact hq e he
    · rcases chanPush_mem q (translateKeyCode code) e he with hm | rfl
      · exact hq e hm
      · exact translateKeyCode_semantic code hcode
    · exact hq e he
    · exact hq e he
    · exact hq e he
  · intro q stdin hq e he
    rw [listenKeyboardStep] at he
    rcases hd : listenKeyboardDecode stdin with ⟨oc, rest⟩
    rw [hd] at he
    cases oc with
    | none => exact hq e he
    | some c =>
      rcases chanPush_mem q { Code := c, EType := KeyPress } e he with hm | rfl
      · exact hq e hm
      · exact listenKeyboardDecode_semantic stdin c rest hd

/-- Witness for C10: a completed volume-up press cycle enqueues the
semantic Up code, and the keyboard digit byte `'1'` enqueues the first
digit code. -/
theorem c10_no_unknown_enqueued_w :
    semanticCode ({ Code := KeyUp, EType := KeyPress } : KeyEvent).Code = true ∧
    semanticCode (KeyQuit + 1) = true :=
  ⟨c10_no_unknown_enqueued.2.1 pressedMap [] KEY_VOLUMEUP 0 (by simp)
     { Code := KeyUp, EType := KeyPress } (by decide),
   c10_no_unknown_enqueued.2.2.1 [49] (KeyQuit + 1) [] (by decide)⟩

end Kxmenu
